import Mathlib

/-!
Verification of the variable-length record page allocator of
storage/ndb/src/kernel/blocks/dbtup/DbtupVarAlloc.cpp.

The embedding models one fragment of one table.  Machine integers
(Uint32) become Nat; the one place where unsigned wrap-around matters
(realloc_var_part computing `add = newsz - oldsz`) is modelled with an
explicit subtraction modulo 2^32 (u32sub).  Intrusive DLList / SLList
page lists become explicit lists of page ids held by the fragment
record, following the design note of the spec that blesses an explicit
free-list abstraction storing page-id sequences per class.  Fatal
defensive assertions (ndbrequire) are modelled by returning `none`
from an Option-valued function; debug-only ndbassert checks do not
abort and are therefore not modelled as failures.

Collaborator code that is declared in headers not present under src/
(Dbtup.hpp, tuppage.hpp, the fixed-part allocator, the page pool) is
modelled from the spec; each such definition carries a doc comment
starting with `Modelled from the spec:`.
-/

/-- Number of per-fragment free lists (free_var_page_array has this many
entries); the c_min_list_size / c_max_list_size arrays have one extra
entry used as the bounds of the unlisted sentinel state.
Modelled from the spec: the constant itself lives in Dbtup.hpp, which is
not under src/; the value 4 is forced by init_list_sizes writing
entries 0..4 of the two bound arrays (4 real classes plus the [0,199]
sentinel entry) and by update_free_page_list reading
c_min_list_size[list_index] for list_index = MAX_FREE_LIST. -/
def MAX_FREE_LIST : Nat := 4

/-- Per-class minimum guaranteed free space, as set by
Dbtup::init_list_sizes (index MAX_FREE_LIST is the sentinel entry). -/
def c_min_list_size (i : Nat) : Nat := [200, 500, 1000, 4080, 0].getD i 0

/-- Per-class maximum free space, as set by Dbtup::init_list_sizes
(index MAX_FREE_LIST is the sentinel entry). -/
def c_max_list_size (i : Nat) : Nat := [499, 999, 4079, 8159, 199].getD i 0

/-- Modelled from the spec: Var_page::DATA_WORDS (tuppage.hpp is not
under src/).  The data capacity of a variable-size page in 32-bit
words; the spec states that the last class (max 8159) must cover the
maximum possible free space of a page, and free_var_rec compares
free_space against DATA_WORDS - 1 for a completely empty page, so
DATA_WORDS = 8160 and the maximum possible free_space is 8159. -/
def Var_page_DATA_WORDS : Nat := 8160

/-- Modelled from the spec: page state constant ZEMPTY_MM of Dbtup.hpp
(not under src/), marking an un-initialised empty page; the concrete
value is immaterial, only distinctness from ZTH_MM_FREE matters. -/
def ZEMPTY_MM : Nat := 0

/-- Modelled from the spec: page state constant ZTH_MM_FREE of
Dbtup.hpp (not under src/), marking a variable-size page in use. -/
def ZTH_MM_FREE : Nat := 3

/-- The RNIL null page id constant used in page header link fields. -/
def RNIL : Nat := 4294967040

/-- Modelled from the spec: Tuple_header::HeaderSize (word count of the
fixed tuple header, declared outside src/); the exact value is
immaterial to the claims. -/
def Tuple_header_HeaderSize : Nat := 2

/-- Modelled from the spec: Var_part_ref::SZ32 (word count of a
variable-part reference, declared outside src/); the exact value is
immaterial to the claims. -/
def Var_part_ref_SZ32 : Nat := 1

/-- Subtraction of 32-bit unsigned integers: the C++ expression a - b
on Uint32 values a, b < 2^32. -/
def u32sub (a b : Nat) : Nat := (a + 4294967296 - b) % 4294967296

/-- A (page number, page index) pair: Local_key / Var_part_ref. -/
structure Local_key where
  m_page_no : Nat
  m_page_idx : Nat
  deriving DecidableEq, Repr

/-- One variable-size page.  free_space and list_index are the header
fields read by the allocator; physical_page_id, nextList, prevList,
frag_page_id, page_state, chunk_size and next_chunk are the remaining
header fields written by get_empty_var_page and alloc_var_part.
next_idx and entry_len are the modelled slot directory: next_idx is
the next unused slot index and entry_len gives the length of each
allocated entry (Modelled from the spec: the slotted page layout of
tuppage.hpp is not under src/). -/
structure Var_page where
  free_space : Nat
  list_index : Nat
  page_state : Nat
  physical_page_id : Nat
  nextList : Nat
  prevList : Nat
  frag_page_id : Nat
  chunk_size : Nat
  next_chunk : Option Nat
  next_idx : Nat
  entry_len : Nat → Nat

/-- The state of one fragment together with its table record and the
modelled external collaborators: pool is c_page_pool (page id to page
header), free_var_page_array / m_empty_pages / noOfVarPages /
m_var_page_chunks are the Fragrecord fields, m_fix_header_size is the
Tablerec field tabPtr->m_offsets[MM].m_fix_header_size, pool_avail and
next_page_id model the raw page pool behind allocConsPages, fix_free
and fixed_live model the fixed-part allocator, and var_ref_of models
the Var_part_ref stored inside each fixed part. -/
structure TupState where
  pool : Nat → Var_page
  free_var_page_array : Nat → List Nat
  m_empty_pages : List Nat
  noOfVarPages : Nat
  m_var_page_chunks : Option Nat
  m_fix_header_size : Nat
  pool_avail : Nat
  next_page_id : Nat
  fix_free : List Local_key
  fixed_live : List Local_key
  var_ref_of : Local_key → Local_key

/-- Replace the page stored at index i of the page pool. -/
def set_page (st : TupState) (i : Nat) (pg : Var_page) : TupState :=
  { st with pool := fun n => if n = i then pg else st.pool n }

/-- Dbtup::calculate_free_list_impl: the loop for i = 0 while
i < MAX_FREE_LIST returning the first i with
free_space_size <= c_max_list_size[i], written as find? over the
index range; none models falling off the end of the loop (the
ndbrequire(false) fatal assertion). -/
def calculate_free_list_impl (free_space_size : Nat) : Option Nat :=
  (List.range MAX_FREE_LIST).find?
    (fun i => free_space_size ≤ c_max_list_size i)

theorem calculate_eq (fs : Nat) :
    calculate_free_list_impl fs =
      if fs ≤ 499 then some 0
      else if fs ≤ 999 then some 1
      else if fs ≤ 4079 then some 2
      else if fs ≤ 8159 then some 3
      else none := by
  have hr : List.range MAX_FREE_LIST = [0, 1, 2, 3] := rfl
  rw [calculate_free_list_impl, hr]
  by_cases h0 : fs ≤ 499 <;> by_cases h1 : fs ≤ 999 <;>
    by_cases h2 : fs ≤ 4079 <;> by_cases h3 : fs ≤ 8159 <;>
    simp [List.find?, h0, h1, h2, h3, c_max_list_size]

theorem c_max_val :
    c_max_list_size 0 = 499 ∧ c_max_list_size 1 = 999 ∧
    c_max_list_size 2 = 4079 ∧ c_max_list_size 3 = 8159 ∧
    c_max_list_size MAX_FREE_LIST = 199 :=
  ⟨rfl, rfl, rfl, rfl, rfl⟩

theorem c_min_val :
    c_min_list_size 0 = 200 ∧ c_min_list_size 1 = 500 ∧
    c_min_list_size 2 = 1000 ∧ c_min_list_size 3 = 4080 ∧
    c_min_list_size MAX_FREE_LIST = 0 :=
  ⟨rfl, rfl, rfl, rfl, rfl⟩

theorem calculate_cases {fs n : Nat}
    (h : calculate_free_list_impl fs = some n) :
    (n = 0 ∧ fs ≤ 499) ∨ (n = 1 ∧ 500 ≤ fs ∧ fs ≤ 999) ∨
    (n = 2 ∧ 1000 ≤ fs ∧ fs ≤ 4079) ∨ (n = 3 ∧ 4080 ≤ fs ∧ fs ≤ 8159) := by
  rw [calculate_eq] at h
  split_ifs at h <;> injection h with h <;> omega

theorem calculate_lt_max {fs n : Nat}
    (h : calculate_free_list_impl fs = some n) : n < MAX_FREE_LIST := by
  rcases calculate_cases h with ⟨rfl, _⟩ | ⟨rfl, _⟩ | ⟨rfl, _⟩ | ⟨rfl, _⟩ <;>
    simp [MAX_FREE_LIST]

theorem calculate_le_max {fs n : Nat}
    (h : calculate_free_list_impl fs = some n) : fs ≤ c_max_list_size n := by
  rcases calculate_cases h with ⟨rfl, h1⟩ | ⟨rfl, h1, h2⟩ | ⟨rfl, h1, h2⟩ |
    ⟨rfl, h1, h2⟩ <;> obtain ⟨e0, e1, e2, e3, e4⟩ := c_max_val <;> omega

theorem calculate_min_le {fs n : Nat}
    (h : calculate_free_list_impl fs = some n) (hn : 0 < n) :
    c_min_list_size n ≤ fs := by
  rcases calculate_cases h with ⟨rfl, h1⟩ | ⟨rfl, h1, h2⟩ | ⟨rfl, h1, h2⟩ |
    ⟨rfl, h1, h2⟩ <;> obtain ⟨e0, e1, e2, e3, e4⟩ := c_min_val <;> omega

theorem calculate_isSome {fs : Nat} (h : fs ≤ 8159) :
    ∃ n, calculate_free_list_impl fs = some n := by
  rw [calculate_eq]
  split_ifs <;> simp_all

theorem calculate_first {fs n : Nat}
    (h : calculate_free_list_impl fs = some n) :
    ∀ j, j < n → c_max_list_size j < fs := by
  intro j hj
  rcases calculate_cases h with ⟨rfl, h1⟩ | ⟨rfl, h1, h2⟩ | ⟨rfl, h1, h2⟩ |
    ⟨rfl, h1, h2⟩ <;> obtain ⟨e0, e1, e2, e3, e4⟩ := c_max_val <;>
    interval_cases j <;> omega

/-- Result of Dbtup::get_alloc_page: a page id, RNIL, or a fatal
ndbrequire failure. -/
inductive AllocPageResult where
  | page (i : Nat)
  | rnil
  | fatal
  deriving DecidableEq, Repr

/-- The first loop of Dbtup::get_alloc_page: scan the free lists from
index start_index up to MAX_FREE_LIST - 1 and return the firstItem
(head) of the first non-empty one, written as find? over the index
range. -/
def scan_lists (arr : Nat → List Nat) (i : Nat) : Option Nat :=
  ((List.range' i (MAX_FREE_LIST - i)).find?
    (fun j => !(arr j).isEmpty)).bind fun j => (arr j).head?

/-- The second loop of Dbtup::get_alloc_page: walk the list of the
class below start_index in order, examining at most 16 pages (the
loop counter), and return the first page whose free_space is at least
alloc_size. -/
def scan_for_space (pool : Nat → Var_page) (alloc_size : Nat) :
    List Nat → Nat → Option Nat
  | [], _ => none
  | p :: ps, loop =>
    if loop < 16 then
      if alloc_size ≤ (pool p).free_space then some p
      else scan_for_space pool alloc_size ps (loop + 1)
    else none

/-- The part of Dbtup::get_alloc_page after start_index is fixed: the
first loop over the lists from start_index upward, then the
ndbrequire(start_index > 0) check and the bounded fallback scan of the
list below start_index. -/
def get_alloc_page_core (arr : Nat → List Nat) (pool : Nat → Var_page)
    (alloc_size start_index : Nat) : AllocPageResult :=
  match scan_lists arr start_index with
  | some p => .page p
  | none =>
    if start_index = 0 then .fatal
    else
      match scan_for_space pool alloc_size (arr (start_index - 1)) 0 with
      | some p => .page p
      | none => .rnil

/-- Dbtup::get_alloc_page.  start_index is the computed class when
that is already the top class MAX_FREE_LIST - 1; otherwise the
ndbrequire(start_index < MAX_FREE_LIST - 1) is checked and the
computed class is incremented. -/
def get_alloc_page (arr : Nat → List Nat) (pool : Nat → Var_page)
    (alloc_size : Nat) : AllocPageResult :=
  match calculate_free_list_impl alloc_size with
  | none => .fatal
  | some ci =>
    if ci = MAX_FREE_LIST - 1 then get_alloc_page_core arr pool alloc_size ci
    else if ci < MAX_FREE_LIST - 1 then
      get_alloc_page_core arr pool alloc_size (ci + 1)
    else .fatal

theorem scan_lists_sound {arr : Nat → List Nat} {i p : Nat}
    (h : scan_lists arr i = some p) :
    ∃ j, i ≤ j ∧ j < MAX_FREE_LIST ∧ p ∈ arr j := by
  rw [scan_lists] at h
  rcases hf : (List.range' i (MAX_FREE_LIST - i)).find?
      (fun j => !(arr j).isEmpty) with _ | j
  · rw [hf] at h
    exact absurd h (by simp)
  · rw [hf] at h
    simp only [Option.bind] at h
    have hjm := List.mem_of_find?_eq_some hf
    rw [List.mem_range'_1] at hjm
    refine ⟨j, hjm.1, by omega, ?_⟩
    rcases he : arr j with _ | ⟨q, qs⟩ <;> rw [he] at h
    · exact absurd h (by simp)
    · injection h with h
      subst h
      exact List.mem_cons_self q qs

theorem scan_for_space_sound {pool : Nat → Var_page} {alloc_size : Nat} :
    ∀ {ps : List Nat} {loop p : Nat},
      scan_for_space pool alloc_size ps loop = some p →
      p ∈ ps ∧ alloc_size ≤ (pool p).free_space := by
  intro ps
  induction ps with
  | nil => intro loop p h; simp [scan_for_space] at h
  | cons q qs ih =>
    intro loop p h
    rw [scan_for_space] at h
    split_ifs at h with h16 hfs
    · injection h with h
      subst h
      exact ⟨List.mem_cons_self q qs, hfs⟩
    · rcases ih h with ⟨h1, h2⟩
      exact ⟨List.mem_cons_of_mem q h1, h2⟩

/-- Case analysis for get_alloc_page_core returning a page: it is
either the head of a non-empty list at class start_index or above, or
a page of the list below start_index that passed the explicit
free-space check of the fallback scan. -/
theorem get_alloc_page_core_cases {arr : Nat → List Nat}
    {pool : Nat → Var_page} {alloc_size start_index p : Nat}
    (h : get_alloc_page_core arr pool alloc_size start_index = .page p) :
    (∃ j, start_index ≤ j ∧ j < MAX_FREE_LIST ∧ p ∈ arr j) ∨
    (0 < start_index ∧ p ∈ arr (start_index - 1) ∧
      alloc_size ≤ (pool p).free_space) := by
  rw [get_alloc_page_core] at h
  split at h
  · rename_i q hs
    injection h with h
    subst h
    exact Or.inl (scan_lists_sound hs)
  · rename_i hs
    split_ifs at h with h0
    split at h
    · rename_i q hss
      injection h with h
      subst h
      rcases scan_for_space_sound hss with ⟨h1, h2⟩
      exact Or.inr ⟨by omega, h1, h2⟩
    · exact absurd h (by simp)

theorem c_max_le (j : Nat) : c_max_list_size j ≤ 8159 := by
  rcases j with _ | _ | _ | _ | _ | k <;>
    simp [c_max_list_size, List.getD]

theorem set_page_get_same (st : TupState) (i : Nat) (pg : Var_page) :
    (set_page st i pg).pool i = pg := by
  simp [set_page]

theorem set_page_get_other (st : TupState) {n i : Nat} (h : n ≠ i)
    (pg : Var_page) : (set_page st i pg).pool n = st.pool n := by
  simp [set_page, h]

/-- The DLList remove step of update_free_page_list: unlink the page
from the list of its current class, but only if list_index denotes an
actual list rather than the unlisted sentinel. -/
def remove_from_lists (st : TupState) (li pi : Nat) : TupState :=
  if li ≠ MAX_FREE_LIST then
    { st with free_var_page_array := fun j =>
        if j = li then (st.free_var_page_array j).erase pi
        else st.free_var_page_array j }
  else st

/-- The DLList add step: link the page at the front of the list of
class n (DLList::add inserts at the head). -/
def add_to_list (st : TupState) (n pi : Nat) : TupState :=
  { st with free_var_page_array := fun j =>
      if j = n then pi :: st.free_var_page_array j
      else st.free_var_page_array j }

/-- Dbtup::update_free_page_list.  If the page's free space has left
the [min, max] range of its current list_index (index MAX_FREE_LIST
denotes the unlisted sentinel, whose bounds are the extra array entry
[0, 199]), the page is removed from its list (if it is in one) and
either marked unlisted — after the fatal ndbrequire that the computed
class is 0 — or added to the recomputed list.  none models a fatal
ndbrequire failure. -/
def update_free_page_list (st : TupState) (pi : Nat) : Option TupState :=
  let pg := st.pool pi
  let free_space := pg.free_space
  let list_index := pg.list_index
  if free_space < c_min_list_size list_index ∨
      c_max_list_size list_index < free_space then
    match calculate_free_list_impl free_space with
    | none => none
    | some new_list_index =>
      let st1 := remove_from_lists st list_index pi
      if free_space < c_min_list_size new_list_index then
        if new_list_index = 0 then
          some (set_page st1 pi { pg with list_index := MAX_FREE_LIST })
        else none
      else
        some (set_page (add_to_list st1 new_list_index pi) pi
          { pg with list_index := new_list_index })
  else some st

theorem remove_from_lists_frame (st : TupState) (li pi : Nat) :
    (remove_from_lists st li pi).pool = st.pool ∧
    (remove_from_lists st li pi).m_empty_pages = st.m_empty_pages ∧
    (remove_from_lists st li pi).noOfVarPages = st.noOfVarPages ∧
    (remove_from_lists st li pi).m_var_page_chunks = st.m_var_page_chunks ∧
    (remove_from_lists st li pi).m_fix_header_size = st.m_fix_header_size ∧
    (remove_from_lists st li pi).pool_avail = st.pool_avail ∧
    (remove_from_lists st li pi).next_page_id = st.next_page_id ∧
    (remove_from_lists st li pi).fix_free = st.fix_free ∧
    (remove_from_lists st li pi).fixed_live = st.fixed_live ∧
    (remove_from_lists st li pi).var_ref_of = st.var_ref_of := by
  rw [remove_from_lists]
  split <;> exact ⟨rfl, rfl, rfl, rfl, rfl, rfl, rfl, rfl, rfl, rfl⟩

/-- The fatal assertions of update_free_page_list are unreachable as
long as the page's free space does not exceed the maximum possible
free space: the classifier always finds a class, and when the free
space is below the minimum of the computed class that class is
necessarily class 0. -/
theorem update_free_page_list_isSome (st : TupState) (pi : Nat)
    (hfs : (st.pool pi).free_space ≤ 8159) :
    ∃ st', update_free_page_list st pi = some st' := by
  rw [update_free_page_list]
  simp only
  rcases hc : calculate_free_list_impl (st.pool pi).free_space with _ | n
  · obtain ⟨m, hm⟩ := calculate_isSome hfs
    rw [hc] at hm
    exact absurd hm (by simp)
  · simp only
    split_ifs with hrange hlow hzero
    · exact ⟨_, rfl⟩
    · exact absurd (calculate_min_le hc (Nat.pos_of_ne_zero hzero)) (by omega)
    · exact ⟨_, rfl⟩
    · exact ⟨_, rfl⟩

/-- After a successful update_free_page_list, the page's list_index is
the class computed from its (unchanged) free space, or the unlisted
sentinel with free space below the smallest class minimum. -/
theorem update_free_page_list_post {st st' : TupState} {pi : Nat}
    (hli : (st.pool pi).list_index ≤ MAX_FREE_LIST)
    (h : update_free_page_list st pi = some st') :
    (st'.pool pi).free_space = (st.pool pi).free_space ∧
    (calculate_free_list_impl ((st'.pool pi).free_space) =
        some ((st'.pool pi).list_index) ∨
      ((st'.pool pi).list_index = MAX_FREE_LIST ∧
        (st'.pool pi).free_space < c_min_list_size 0)) := by
  have hli4 : (st.pool pi).list_index ≤ 4 := by
    simpa [MAX_FREE_LIST] using hli
  rw [update_free_page_list] at h
  simp only at h
  rcases hc : calculate_free_list_impl (st.pool pi).free_space with _ | n <;>
    rw [hc] at h <;> simp only at h
  · split_ifs at h with hrange
    injection h with h
    subst h
    rw [not_or, not_lt, not_lt] at hrange
    obtain ⟨hmin, hmax⟩ := hrange
    exfalso
    have hfs : (st.pool pi).free_space ≤ 8159 :=
      le_trans hmax (c_max_le _)
    obtain ⟨m, hm⟩ := calculate_isSome hfs
    rw [hc] at hm
    exact absurd hm (by simp)
  · split_ifs at h with hrange hlow hzero
    · injection h with h
      subst h
      rw [set_page_get_same]
      exact ⟨rfl, Or.inr ⟨rfl, by rw [hzero] at hlow; exact hlow⟩⟩
    · injection h with h
      subst h
      rw [set_page_get_same]
      exact ⟨rfl, Or.inl hc⟩
    · injection h with h
      subst h
      rw [not_or, not_lt, not_lt] at hrange
      obtain ⟨hmin, hmax⟩ := hrange
      refine ⟨rfl, ?_⟩
      obtain ⟨e0, e1, e2, e3, e4⟩ := c_max_val
      obtain ⟨f0, f1, f2, f3, f4⟩ := c_min_val
      simp only [MAX_FREE_LIST] at e4 f4 ⊢
      obtain ⟨li, hl0⟩ : ∃ li, (st.pool pi).list_index = li := ⟨_, rfl⟩
      rw [hl0] at hmin hmax hli4 ⊢
      rw [calculate_eq]
      interval_cases li <;>
        first
          | exact Or.inr ⟨rfl, by omega⟩
          | exact Or.inl (by split_ifs <;> first | rfl | (exfalso; omega))

/-- update_free_page_list only moves the page between class lists and
rewrites its list_index: every other fragment field and every other
page field is untouched. -/
theorem update_free_page_list_frame {st st' : TupState} {pi : Nat}
    (h : update_free_page_list st pi = some st') :
    st'.m_empty_pages = st.m_empty_pages ∧
    st'.noOfVarPages = st.noOfVarPages ∧
    st'.m_var_page_chunks = st.m_var_page_chunks ∧
    st'.m_fix_header_size = st.m_fix_header_size ∧
    st'.pool_avail = st.pool_avail ∧
    st'.next_page_id = st.next_page_id ∧
    st'.fix_free = st.fix_free ∧
    st'.fixed_live = st.fixed_live ∧
    st'.var_ref_of = st.var_ref_of ∧
    ∀ n, (st'.pool n).free_space = (st.pool n).free_space ∧
      (st'.pool n).chunk_size = (st.pool n).chunk_size ∧
      (st'.pool n).next_chunk = (st.pool n).next_chunk ∧
      (st'.pool n).next_idx = (st.pool n).next_idx ∧
      (st'.pool n).entry_len = (st.pool n).entry_len ∧
      (st'.pool n).page_state = (st.pool n).page_state := by
  rw [update_free_page_list] at h
  simp only at h
  rcases hc : calculate_free_list_impl (st.pool pi).free_space with _ | n <;>
    rw [hc] at h <;> simp only at h
  · split_ifs at h with hrange
    injection h with h
    subst h
    exact ⟨rfl, rfl, rfl, rfl, rfl, rfl, rfl, rfl, rfl, fun n =>
      ⟨rfl, rfl, rfl, rfl, rfl, rfl⟩⟩
  · obtain ⟨r0, r1, r2, r3, r4, r5, r6, r7, r8, r9⟩ :=
      remove_from_lists_frame st (st.pool pi).list_index pi
    split_ifs at h with hrange hlow hzero <;> injection h with h <;> subst h <;>
      first
        | exact ⟨rfl, rfl, rfl, rfl, rfl, rfl, rfl, rfl, rfl, fun m =>
            ⟨rfl, rfl, rfl, rfl, rfl, rfl⟩⟩
        | (refine ⟨r1, r2, r3, r4, r5, r6, r7, r8, r9, fun m => ?_⟩
           by_cases hm : m = pi <;> simp [set_page, add_to_list, hm, r0])

/-- Modelled from the spec: Var_page::init of tuppage.hpp (not under
src/).  A freshly initialised variable-size page has the maximum
possible free space DATA_WORDS - 1 and an empty slot directory. -/
def var_page_init (pg : Var_page) : Var_page :=
  { pg with free_space := Var_page_DATA_WORDS - 1,
            next_idx := 0,
            entry_len := fun _ => 0 }

/-- Modelled from the spec: Var_page::alloc_record (tuppage.hpp not
under src/).  The page layout engine insert: carve alloc_size words
for a new slot plus one word of per-slot bookkeeping (the slack
accounted for by the +1 used by the callers of get_alloc_page); the
new slot index is the next unused directory index.  Per the spec the
insert fails when the page does not have that much room (the caller
must have verified via the free-list lookup); in the C++ code that is
a page-engine assertion and, in a release build, an unsigned
free_space wrap that the following requery turns into the fatal
ndbrequire — both modelled as none, aborting the allocation like a
fatal assertion. -/
def var_page_alloc_record (pg : Var_page) (alloc_size : Nat) :
    Option (Var_page × Nat) :=
  if pg.free_space < alloc_size + 1 then none
  else
    some ({ pg with free_space := pg.free_space - (alloc_size + 1),
                    next_idx := pg.next_idx + 1,
                    entry_len := fun j =>
                      if j = pg.next_idx then alloc_size
                      else pg.entry_len j },
      pg.next_idx)

/-- Modelled from the spec: Var_page::free_record (tuppage.hpp not
under src/).  The page layout engine free: the slot's length plus its
word of bookkeeping is coalesced back into free_space and the
directory entry is cleared. -/
def var_page_free_record (pg : Var_page) (idx : Nat) : Var_page :=
  { pg with free_space := pg.free_space + pg.entry_len idx + 1,
            entry_len := fun j => if j = idx then 0 else pg.entry_len j }

/-- Modelled from the spec: Var_page::grow_entry (tuppage.hpp not
under src/), together with the preceding optional in-page
reorganisation: the slot is extended in place by add words; the
reorganisation only rewrites slot offsets and leaves free_space and
entry lengths unchanged, so the net effect is free_space -= add and
entry_len += add. -/
def var_page_grow_entry (pg : Var_page) (idx add : Nat) : Var_page :=
  { pg with free_space := pg.free_space - add,
            entry_len := fun j =>
              if j = idx then pg.entry_len j + add else pg.entry_len j }

/-- Modelled from the spec: allocConsPages of the page pool (not under
src/) asks for req consecutive pages and receives cnt ≤ req pages
starting at the next unused page id; cnt is limited by how many pages
the pool still has and is 0 exactly when the pool is exhausted. -/
def allocConsPages (st : TupState) (req : Nat) : TupState × Nat × Nat :=
  let cnt := min req st.pool_avail
  ({ st with pool_avail := st.pool_avail - cnt,
             next_page_id := st.next_page_id + cnt },
   cnt, st.next_page_id)

/-- The header initialisation loop of Dbtup::get_empty_var_page over
the freshly allocated run of pages: each page gets its physical page
id, state ZEMPTY_MM, nextList pointing at the next page of the run,
prevList and frag_page_id RNIL; afterwards, when cnt > 1, the last
page's nextList is first set to RNIL and then overwritten by the
SLList add with the old list head, which is RNIL here because the
empty list was empty. -/
def init_chunk_pages (st : TupState) (start cnt : Nat) : TupState :=
  { st with pool := fun n =>
      if start ≤ n ∧ n < start + cnt then
        { st.pool n with
            physical_page_id := n,
            page_state := ZEMPTY_MM,
            nextList := if 1 < cnt ∧ n = start + cnt - 1 then RNIL else n + 1,
            prevList := RNIL,
            frag_page_id := RNIL }
      else st.pool n }

/-- Dbtup::get_empty_var_page: pop the front of m_empty_pages if
non-empty; otherwise batch-allocate up to 10 pages via allocConsPages,
add cnt to noOfVarPages (the increment precedes the cnt == 0 check
that returns RNIL), initialise the run's page headers, link the pages
after the first into m_empty_pages when cnt > 1, and record the chunk
header (chunk_size, next_chunk) on the first page, pushing it onto the
fragment's chunk list. -/
def get_empty_var_page (st : TupState) : TupState × Option Nat :=
  match st.m_empty_pages with
  | p :: rest => ({ st with m_empty_pages := rest }, some p)
  | [] =>
    let res := allocConsPages st 10
    let st1 := res.1
    let cnt := res.2.1
    let start := res.2.2
    let st2 := { st1 with noOfVarPages := st1.noOfVarPages + cnt }
    if cnt = 0 then (st2, none)
    else
      let st3 := init_chunk_pages st2 start cnt
      let st4 :=
        if 1 < cnt then
          { st3 with m_empty_pages :=
              List.range' (start + 1) (cnt - 1) ++ st3.m_empty_pages }
        else st3
      let pg := st4.pool start
      let st5 := set_page st4 start
        { pg with chunk_size := cnt, next_chunk := st4.m_var_page_chunks }
      ({ st5 with m_var_page_chunks := some start }, some start)

/-- The fresh-page branch of Dbtup::alloc_var_part: the page obtained
from get_empty_var_page is initialised, its list_index set to the top
class MAX_FREE_LIST - 1, the page added to that class list, and its
state changed to ZTH_MM_FREE (in use). -/
def alloc_var_part_newpage (st1 : TupState) (pi : Nat) : TupState :=
  let pg0 := var_page_init (st1.pool pi)
  let pg1 := { pg0 with list_index := MAX_FREE_LIST - 1 }
  let st2 := add_to_list (set_page st1 pi pg1) (MAX_FREE_LIST - 1) pi
  let pg2 := { (st2.pool pi) with page_state := ZTH_MM_FREE }
  set_page st2 pi pg2

/-- The common tail of Dbtup::alloc_var_part once a page has been
chosen: insert the record via the page layout engine, store page
number and index into the key, and re-file the page via
update_free_page_list. -/
def alloc_var_part_tail (st : TupState) (pi alloc_size : Nat) :
    Option (TupState × Option Local_key) :=
  match var_page_alloc_record (st.pool pi) alloc_size with
  | none => none
  | some (pg, idx) =>
    match update_free_page_list (set_page st pi pg) pi with
    | none => none
    | some st2 => some (st2, some ⟨pi, idx⟩)

/-- Dbtup::alloc_var_part: ask get_alloc_page for a page with room for
alloc_size + 1; if RNIL, ask get_empty_var_page for a fresh page and
fail (returning a null result, with the supplier state kept) exactly
when that fails too; a fresh page is initialised, filed under the top
class MAX_FREE_LIST - 1 and marked ZTH_MM_FREE.  Then insert the
record, fill the key and re-file the page.  The outer none models a
fatal ndbrequire failure. -/
def alloc_var_part (st : TupState) (alloc_size : Nat) :
    Option (TupState × Option Local_key) :=
  match get_alloc_page st.free_var_page_array st.pool (alloc_size + 1) with
  | .fatal => none
  | .page pi => alloc_var_part_tail st pi alloc_size
  | .rnil =>
    let res := get_empty_var_page st
    match res.2 with
    | none => some (res.1, none)
    | some pi => alloc_var_part_tail (alloc_var_part_newpage res.1 pi) pi
        alloc_size

/-- Modelled from the spec: the fixed-part allocator collaborator
(alloc_fix(fragment, table, key) -> pointer | fail).  The model keeps
a free list of fixed-slot keys and a list of live fixed allocations:
allocation pops the front free key and marks it live, failing exactly
when no free fixed slot remains. -/
def alloc_fix_rec (st : TupState) : TupState × Option Local_key :=
  match st.fix_free with
  | [] => (st, none)
  | k :: rest =>
    ({ st with fix_free := rest, fixed_live := k :: st.fixed_live }, some k)

/-- Modelled from the spec: free_fix(fragment, table, key) of the
fixed-part allocator collaborator: the key returns to the front of the
free list and leaves the live set. -/
def free_fix_rec (st : TupState) (k : Local_key) : TupState :=
  { st with fix_free := k :: st.fix_free,
            fixed_live := st.fixed_live.erase k }

/-- Modelled from the spec: the rowid variant of the fixed-part
allocator (alloc_fix_rowid), behaving like alloc_fix_rec at this level
of abstraction. -/
def alloc_fix_rowid (st : TupState) : TupState × Option Local_key :=
  alloc_fix_rec st

/-- The shared second phase of Dbtup::alloc_var_rec and
Dbtup::alloc_var_rowid, identical in both: allocate the variable part;
on success store the returned reference into the fixed part and return
the fixed key; on failure free the already-allocated fixed part and
return null. -/
def alloc_var_common (st2 : TupState) (key : Local_key)
    (alloc_size : Nat) : Option (TupState × Option Local_key) :=
  match alloc_var_part st2 alloc_size with
  | none => none
  | some (st3, some varref) =>
    some ({ st3 with var_ref_of := fun k =>
              if k = key then varref else st3.var_ref_of k }, some key)
  | some (st3, none) => some (free_fix_rec st3 key, none)

/-- Dbtup::alloc_var_rec: bump m_fix_header_size by
Tuple_header::HeaderSize + Var_part_ref::SZ32, allocate the fixed
part, restore m_fix_header_size (both the bump and the restore happen
before any return), then run the shared second phase. -/
def alloc_var_rec (st : TupState) (alloc_size : Nat) :
    Option (TupState × Option Local_key) :=
  let XXX := Tuple_header_HeaderSize + Var_part_ref_SZ32
  let st0 := { st with m_fix_header_size := st.m_fix_header_size + XXX }
  let res := alloc_fix_rec st0
  let st2 := { res.1 with m_fix_header_size := res.1.m_fix_header_size - XXX }
  match res.2 with
  | none => some (st2, none)
  | some key => alloc_var_common st2 key alloc_size

/-- Dbtup::alloc_var_rowid: same two-phase allocation as alloc_var_rec
but through alloc_fix_rowid. -/
def alloc_var_rowid (st : TupState) (alloc_size : Nat) :
    Option (TupState × Option Local_key) :=
  let XXX := Tuple_header_HeaderSize + Var_part_ref_SZ32
  let st0 := { st with m_fix_header_size := st.m_fix_header_size + XXX }
  let res := alloc_fix_rowid st0
  let st2 := { res.1 with m_fix_header_size := res.1.m_fix_header_size - XXX }
  match res.2 with
  | none => some (st2, none)
  | some key => alloc_var_common st2 key alloc_size

/-- Dbtup::free_var_rec: read the variable-part reference out of the
fixed part, free the fixed part, free the referenced slot on its
variable page, and re-file that page via update_free_page_list — both
branches of the completely-empty-page if statement do exactly that
(the empty-page branch only carries a comment about code that could
release pages).  none models a fatal ndbrequire failure. -/
def free_var_rec (st : TupState) (key : Local_key) : Option TupState :=
  let ref := st.var_ref_of key
  let st1 := free_fix_rec st key
  let pg := var_page_free_record (st1.pool ref.m_page_no) ref.m_page_idx
  let st2 := set_page st1 ref.m_page_no pg
  if pg.free_space = Var_page_DATA_WORDS - 1 then
    update_free_page_list st2 ref.m_page_no
  else
    update_free_page_list st2 ref.m_page_no

/-- Dbtup::realloc_var_part.  add is the Uint32 difference
newsz - oldsz, which wraps around for newsz < oldsz.  If the old page
has free_space >= add the entry grows in place (after an in-page
reorganisation when the space is not behind the entry).  Otherwise a
fresh slot of newsz words is allocated via alloc_var_part; if that
fails the call returns null; otherwise (the debug-only ndbassert that
the new page differs from the old one does not abort a release build)
the reference is updated, the old slot is freed and the old page is
re-filed.  The returned key is the location of the entry after the
call. -/
def realloc_var_part (st : TupState) (pagePtrI : Nat) (fixKey : Local_key)
    (oldsz newsz : Nat) : Option (TupState × Option Local_key) :=
  let add := u32sub newsz oldsz
  let oldref := st.var_ref_of fixKey
  if add ≤ (st.pool pagePtrI).free_space then
    let pg := var_page_grow_entry (st.pool pagePtrI) oldref.m_page_idx add
    match update_free_page_list (set_page st pagePtrI pg) pagePtrI with
    | none => none
    | some st1 => some (st1, some oldref)
  else
    match alloc_var_part st newsz with
    | none => none
    | some (st1, none) => some (st1, none)
    | some (st1, some newref) =>
      let st2 := { st1 with var_ref_of := fun k =>
          if k = fixKey then newref else st1.var_ref_of k }
      let pg := var_page_free_record (st2.pool pagePtrI) oldref.m_page_idx
      let st3 := set_page st2 pagePtrI pg
      match update_free_page_list st3 pagePtrI with
      | none => none
      | some st4 => some (st4, some newref)

/-- get_empty_var_page never touches the table record, the fixed-part
allocator state, the stored references or the class free lists. -/
theorem get_empty_var_page_frame (st : TupState) :
    (get_empty_var_page st).1.m_fix_header_size = st.m_fix_header_size ∧
    (get_empty_var_page st).1.fix_free = st.fix_free ∧
    (get_empty_var_page st).1.fixed_live = st.fixed_live ∧
    (get_empty_var_page st).1.var_ref_of = st.var_ref_of ∧
    (get_empty_var_page st).1.free_var_page_array = st.free_var_page_array := by
  rw [get_empty_var_page]
  split
  · exact ⟨rfl, rfl, rfl, rfl, rfl⟩
  · dsimp only
    split_ifs <;> exact ⟨rfl, rfl, rfl, rfl, rfl⟩

/-- get_empty_var_page fails exactly when the empty-page list is empty
and the page pool is exhausted, and in that case the state is
unchanged. -/
theorem get_empty_var_page_fail (st : TupState) (he : st.m_empty_pages = [])
    (ha : st.pool_avail = 0) : get_empty_var_page st = (st, none) := by
  have hc : min 10 st.pool_avail = 0 := by rw [ha]; rfl
  rw [get_empty_var_page, he]
  simp only [allocConsPages]
  rw [if_pos hc]
  simp only [hc, Nat.add_zero, Nat.sub_zero]

/-- alloc_var_part_tail leaves every fragment field except the class
lists, the page pool and (through update_free_page_list) the moved
page untouched. -/
theorem alloc_var_part_tail_frame {st st' : TupState}
    {r : Option Local_key} {pi sz : Nat}
    (h : alloc_var_part_tail st pi sz = some (st', r)) :
    st'.m_fix_header_size = st.m_fix_header_size ∧
    st'.fix_free = st.fix_free ∧
    st'.fixed_live = st.fixed_live ∧
    st'.var_ref_of = st.var_ref_of ∧
    st'.m_empty_pages = st.m_empty_pages ∧
    st'.noOfVarPages = st.noOfVarPages ∧
    st'.m_var_page_chunks = st.m_var_page_chunks ∧
    st'.pool_avail = st.pool_avail ∧
    st'.next_page_id = st.next_page_id := by
  rw [alloc_var_part_tail] at h
  split at h
  · exact absurd h (by simp)
  · rename_i pg idx halloc
    split at h
    · exact absurd h (by simp)
    · rename_i st2 hu
      injection h with h
      rw [Prod.mk.injEq] at h
      obtain ⟨h1, h2⟩ := h
      subst h1
      obtain ⟨f1, f2, f3, f4, f5, f6, f7, f8, f9, _⟩ :=
        update_free_page_list_frame hu
      exact ⟨f4, f7, f8, f9, f1, f2, f3, f5, f6⟩

/-- alloc_var_part leaves the table record, the fixed-part allocator
state and the stored references untouched. -/
theorem alloc_var_part_frame {st st' : TupState} {r : Option Local_key}
    {sz : Nat} (h : alloc_var_part st sz = some (st', r)) :
    st'.m_fix_header_size = st.m_fix_header_size ∧
    st'.fix_free = st.fix_free ∧
    st'.fixed_live = st.fixed_live ∧
    st'.var_ref_of = st.var_ref_of := by
  rw [alloc_var_part] at h
  simp only at h
  split at h
  · exact absurd h (by simp)
  · obtain ⟨f1, f2, f3, f4, _⟩ := alloc_var_part_tail_frame h
    exact ⟨f1, f2, f3, f4⟩
  · obtain ⟨g1, g2, g3, g4, g5⟩ := get_empty_var_page_frame st
    split at h
    · injection h with h
      rw [Prod.mk.injEq] at h
      obtain ⟨h1, h2⟩ := h
      subst h1
      exact ⟨g1, g2, g3, g4⟩
    · obtain ⟨f1, f2, f3, f4, _⟩ := alloc_var_part_tail_frame h
      exact ⟨f1.trans g1, f2.trans g2, f3.trans g3, f4.trans g4⟩

theorem alloc_var_common_fix_header (stx : TupState) (key : Local_key)
    (sz v : Nat) (hv : stx.m_fix_header_size = v) :
    (alloc_var_common stx key sz).elim True
      (fun r => r.1.m_fix_header_size = v) := by
  rw [alloc_var_common]
  rcases hav : alloc_var_part stx sz with _ | ⟨st3, _ | varref⟩
  · trivial
  · exact ((alloc_var_part_frame hav).1).trans hv
  · exact ((alloc_var_part_frame hav).1).trans hv

/-- C9: every call to alloc_var_rec and alloc_var_rowid leaves the
table record field m_fix_header_size with its entry value: the field
is increased by Tuple_header::HeaderSize + Var_part_ref::SZ32 around
the fixed-part allocation and decreased by the same amount before any
return, on the success path and on every failure path. -/
theorem C9_fix_header_size_restored (st : TupState) (sz : Nat) :
    ((alloc_var_rec st sz).elim True fun r =>
        r.1.m_fix_header_size = st.m_fix_header_size) ∧
    ((alloc_var_rowid st sz).elim True fun r =>
        r.1.m_fix_header_size = st.m_fix_header_size) := by
  have main : (alloc_var_rec st sz).elim True
      (fun r => r.1.m_fix_header_size = st.m_fix_header_size) := by
    rw [alloc_var_rec]
    simp only [alloc_fix_rec]
    rcases hff : st.fix_free with _ | ⟨k, rest⟩
    · simp
    · exact alloc_var_common_fix_header _ k sz _ (Nat.add_sub_cancel _ _)
  exact ⟨main, main⟩

/-- C5: calculate_free_list_impl scans the classes in increasing index
order and returns the first class i with c_max_list_size i at least
the free space; for every free space value up to the maximum possible
page free space (DATA_WORDS - 1, which the last class covers exactly)
some class is found, so the fatal ndbrequire(false) is unreachable. -/
theorem C5_calculate_free_list_total :
    ∀ fs, fs ≤ Var_page_DATA_WORDS - 1 →
      ∃ i, calculate_free_list_impl fs = some i ∧ i < MAX_FREE_LIST ∧
        fs ≤ c_max_list_size i ∧ (∀ j, j < i → c_max_list_size j < fs) ∧
        c_max_list_size (MAX_FREE_LIST - 1) = Var_page_DATA_WORDS - 1 := by
  intro fs h
  obtain ⟨n, hn⟩ :=
    calculate_isSome (by simpa [Var_page_DATA_WORDS] using h)
  exact ⟨n, hn, calculate_lt_max hn, calculate_le_max hn,
    calculate_first hn, rfl⟩

theorem C5_witness :
    8159 ≤ Var_page_DATA_WORDS - 1 ∧
    ∃ i, calculate_free_list_impl 8159 = some i ∧ i < MAX_FREE_LIST ∧
      8159 ≤ c_max_list_size i ∧ (∀ j, j < i → c_max_list_size j < 8159) ∧
      c_max_list_size (MAX_FREE_LIST - 1) = Var_page_DATA_WORDS - 1 :=
  ⟨by decide, C5_calculate_free_list_total 8159 (by decide)⟩

/-- C2: after any successful update_free_page_list call on a page with
a valid list_index and a representable free space, the page's
list_index is consistent with the classification of its free space:
either it equals calculate_free_list_impl(free_space), or it is the
unlisted sentinel MAX_FREE_LIST and the free space is below the
smallest class minimum; and the call never hits a fatal assertion. -/
theorem C2_update_free_page_list_consistent (st : TupState) (pi : Nat)
    (hfs : (st.pool pi).free_space ≤ Var_page_DATA_WORDS - 1)
    (hli : (st.pool pi).list_index ≤ MAX_FREE_LIST) :
    ∃ st', update_free_page_list st pi = some st' ∧
      (calculate_free_list_impl ((st'.pool pi).free_space) =
          some ((st'.pool pi).list_index) ∨
        ((st'.pool pi).list_index = MAX_FREE_LIST ∧
          (st'.pool pi).free_space < c_min_list_size 0)) := by
  obtain ⟨st', h⟩ := update_free_page_list_isSome st pi
    (by simpa [Var_page_DATA_WORDS] using hfs)
  exact ⟨st', h, (update_free_page_list_post hli h).2⟩

/-- A page header with nothing on the page and no list membership,
used as the default of the concrete test pools. -/
def blank_page : Var_page :=
  { free_space := 0, list_index := MAX_FREE_LIST, page_state := 0,
    physical_page_id := 0, nextList := RNIL, prevList := RNIL,
    frag_page_id := RNIL, chunk_size := 0, next_chunk := none,
    next_idx := 0, entry_len := fun _ => 0 }

/-- A concrete fragment whose page 7 sits in class list 0 while its
free space 600 belongs to class 1, as happens right after an operation
changed the free space and before the requery refiles the page. -/
def C2_state : TupState :=
  { pool := fun n =>
      if n = 7 then { blank_page with free_space := 600, list_index := 0 }
      else blank_page,
    free_var_page_array := fun j => if j = 0 then [7] else [],
    m_empty_pages := [], noOfVarPages := 1, m_var_page_chunks := none,
    m_fix_header_size := 10, pool_avail := 0, next_page_id := 8,
    fix_free := [], fixed_live := [], var_ref_of := fun _ => ⟨0, 0⟩ }

theorem C2_witness :
    ((C2_state.pool 7).free_space ≤ Var_page_DATA_WORDS - 1 ∧
      (C2_state.pool 7).list_index ≤ MAX_FREE_LIST) ∧
    ∃ st', update_free_page_list C2_state 7 = some st' ∧
      (calculate_free_list_impl ((st'.pool 7).free_space) =
          some ((st'.pool 7).list_index) ∨
        ((st'.pool 7).list_index = MAX_FREE_LIST ∧
          (st'.pool 7).free_space < c_min_list_size 0)) :=
  ⟨⟨by decide, by decide⟩,
    C2_update_free_page_list_consistent C2_state 7 (by decide) (by decide)⟩

/-- C10: free_var_rec never returns the page to the empty-page list,
never unlinks it from the chunk list, and never decreases the page
count, even when the free leaves the page completely empty: in every
case the page is only re-filed among the class lists through
update_free_page_list.  The hypothesis says the freed slot fits on the
page, so the resulting free space stays representable. -/
theorem C10_free_var_rec_frame (st : TupState) (key : Local_key)
    (hfs : (st.pool (st.var_ref_of key).m_page_no).free_space +
        (st.pool (st.var_ref_of key).m_page_no).entry_len
          (st.var_ref_of key).m_page_idx + 1 ≤ Var_page_DATA_WORDS - 1) :
    ∃ st', free_var_rec st key = some st' ∧
      st'.m_empty_pages = st.m_empty_pages ∧
      st'.m_var_page_chunks = st.m_var_page_chunks ∧
      st'.noOfVarPages = st.noOfVarPages ∧
      st'.pool_avail = st.pool_avail ∧
      st'.next_page_id = st.next_page_id ∧
      ∀ n, (st'.pool n).chunk_size = (st.pool n).chunk_size ∧
        (st'.pool n).next_chunk = (st.pool n).next_chunk := by
  rw [free_var_rec]
  simp only [ite_self]
  have hb : ((set_page (free_fix_rec st key)
      (st.var_ref_of key).m_page_no
      (var_page_free_record
        ((free_fix_rec st key).pool (st.var_ref_of key).m_page_no)
        (st.var_ref_of key).m_page_idx)).pool
        (st.var_ref_of key).m_page_no).free_space ≤ 8159 := by
    rw [set_page_get_same]
    simpa [Var_page_DATA_WORDS, var_page_free_record] using hfs
  obtain ⟨st', hu⟩ := update_free_page_list_isSome _ _ hb
  refine ⟨st', hu, ?_⟩
  obtain ⟨f1, f2, f3, f4, f5, f6, f7, f8, f9, fp⟩ :=
    update_free_page_list_frame hu
  refine ⟨f1, f3, f2, f5, f6, fun n => ?_⟩
  obtain ⟨_, c1, c2, _, _, _⟩ := fp n
  by_cases hn : n = (st.var_ref_of key).m_page_no
  · subst hn
    refine ⟨c1.trans ?_, c2.trans ?_⟩ <;> rw [set_page_get_same] <;> rfl
  · refine ⟨c1.trans ?_, c2.trans ?_⟩ <;>
      rw [set_page_get_other _ hn] <;> rfl

/-- A concrete fragment for the C10 witness: page 3 holds one slot of
158 words; freeing it raises free_space from 8000 to exactly
DATA_WORDS - 1 = 8159, the completely empty page case. -/
def C10_state : TupState :=
  { pool := fun n =>
      if n = 3 then
        { blank_page with
          free_space := 8000, list_index := 3, next_idx := 1,
          entry_len := fun j => if j = 0 then 158 else 0 }
      else blank_page,
    free_var_page_array := fun j => if j = 3 then [3] else [],
    m_empty_pages := [], noOfVarPages := 1, m_var_page_chunks := some 3,
    m_fix_header_size := 5, pool_avail := 4, next_page_id := 9,
    fix_free := [], fixed_live := [⟨1, 1⟩],
    var_ref_of := fun _ => ⟨3, 0⟩ }

theorem C10_witness :
    ((C10_state.pool (C10_state.var_ref_of ⟨1, 1⟩).m_page_no).free_space +
        (C10_state.pool (C10_state.var_ref_of ⟨1, 1⟩).m_page_no).entry_len
          (C10_state.var_ref_of ⟨1, 1⟩).m_page_idx + 1 ≤
      Var_page_DATA_WORDS - 1) ∧
    ∃ st', free_var_rec C10_state ⟨1, 1⟩ = some st' ∧
      st'.m_empty_pages = C10_state.m_empty_pages ∧
      st'.m_var_page_chunks = C10_state.m_var_page_chunks ∧
      st'.noOfVarPages = C10_state.noOfVarPages ∧
      st'.pool_avail = C10_state.pool_avail ∧
      st'.next_page_id = C10_state.next_page_id ∧
      ∀ n, (st'.pool n).chunk_size = (C10_state.pool n).chunk_size ∧
        (st'.pool n).next_chunk = (C10_state.pool n).next_chunk :=
  ⟨by decide, C10_free_var_rec_frame C10_state ⟨1, 1⟩ (by decide)⟩

/-- C7: get_empty_var_page pops the front of the empty-page list when
it is non-empty; otherwise it batch-allocates a run of up to 10 pages,
increases noOfVarPages by exactly the number of pages actually
allocated, links the remaining pages of the run into the empty-page
list, records the chunk header (chunk_size and the previous chunk-list
head) on the first page of the run, pushes that page onto the chunk
list, and returns it; it returns none exactly when the empty list is
empty and the page pool allocates zero pages. -/
theorem C7_get_empty_var_page_spec (st : TupState) :
    (∀ p rest, st.m_empty_pages = p :: rest →
      get_empty_var_page st = ({ st with m_empty_pages := rest }, some p)) ∧
    (st.m_empty_pages = [] → st.pool_avail = 0 →
      get_empty_var_page st = (st, none)) ∧
    (st.m_empty_pages = [] → 0 < st.pool_avail →
      (get_empty_var_page st).2 = some st.next_page_id ∧
      (get_empty_var_page st).1.noOfVarPages =
        st.noOfVarPages + min 10 st.pool_avail ∧
      (get_empty_var_page st).1.pool_avail =
        st.pool_avail - min 10 st.pool_avail ∧
      (get_empty_var_page st).1.m_empty_pages =
        List.range' (st.next_page_id + 1) (min 10 st.pool_avail - 1) ∧
      (get_empty_var_page st).1.m_var_page_chunks = some st.next_page_id ∧
      ((get_empty_var_page st).1.pool st.next_page_id).chunk_size =
        min 10 st.pool_avail ∧
      ((get_empty_var_page st).1.pool st.next_page_id).next_chunk =
        st.m_var_page_chunks) := by
  refine ⟨?pop, get_empty_var_page_fail st, ?batch⟩
  case pop =>
    intro p rest h
    rw [get_empty_var_page, h]
  case batch =>
    intro he hpos
    have hc0 : 0 < min 10 st.pool_avail := by omega
    have hcne : ¬(min 10 st.pool_avail = 0) := by omega
    rw [get_empty_var_page, he]
    simp only [allocConsPages]
    rw [if_neg hcne]
    by_cases h1 : 1 < min 10 st.pool_avail
    · rw [if_pos h1]
      refine ⟨rfl, rfl, rfl, ?_, rfl, ?_, ?_⟩ <;>
        simp [set_page, init_chunk_pages, he]
    · have hone : min 10 st.pool_avail = 1 := by omega
      rw [if_neg h1]
      refine ⟨rfl, rfl, rfl, ?_, rfl, ?_, ?_⟩ <;>
        simp [set_page, init_chunk_pages, he, hone, List.range']

/-- A concrete fragment for the C7 witness: empty-page list empty and
4 pages left in the pool, so the batch branch allocates a run of 4. -/
def C7_state : TupState :=
  { pool := fun _ => blank_page, free_var_page_array := fun _ => [],
    m_empty_pages := [], noOfVarPages := 2, m_var_page_chunks := some 0,
    m_fix_header_size := 0, pool_avail := 4, next_page_id := 5,
    fix_free := [], fixed_live := [], var_ref_of := fun _ => ⟨0, 0⟩ }

theorem C7_witness :
    (C7_state.m_empty_pages = [] ∧ 0 < C7_state.pool_avail) ∧
    ((get_empty_var_page C7_state).2 = some C7_state.next_page_id ∧
      (get_empty_var_page C7_state).1.noOfVarPages =
        C7_state.noOfVarPages + min 10 C7_state.pool_avail ∧
      (get_empty_var_page C7_state).1.pool_avail =
        C7_state.pool_avail - min 10 C7_state.pool_avail ∧
      (get_empty_var_page C7_state).1.m_empty_pages =
        List.range' (C7_state.next_page_id + 1)
          (min 10 C7_state.pool_avail - 1) ∧
      (get_empty_var_page C7_state).1.m_var_page_chunks =
        some C7_state.next_page_id ∧
      ((get_empty_var_page C7_state).1.pool
          C7_state.next_page_id).chunk_size =
        min 10 C7_state.pool_avail ∧
      ((get_empty_var_page C7_state).1.pool
          C7_state.next_page_id).next_chunk =
        C7_state.m_var_page_chunks) :=
  ⟨⟨rfl, by decide⟩,
    (C7_get_empty_var_page_spec C7_state).2.2 rfl (by decide)⟩

theorem get_empty_var_page_pop {st : TupState} {p : Nat} {rest : List Nat}
    (h : st.m_empty_pages = p :: rest) :
    get_empty_var_page st = ({ st with m_empty_pages := rest }, some p) := by
  rw [get_empty_var_page, h]

theorem get_empty_var_page_batch {st : TupState}
    (he : st.m_empty_pages = []) (hpos : 0 < st.pool_avail) :
    ∃ stx, get_empty_var_page st = (stx, some st.next_page_id) := by
  have hcne : ¬(min 10 st.pool_avail = 0) := by omega
  rw [get_empty_var_page, he]
  simp only [allocConsPages]
  rw [if_neg hcne]
  exact ⟨_, rfl⟩

/-- A key returned by alloc_var_part_tail names the chosen page, the
page had room for the record plus its bookkeeping word (otherwise the
insert would have aborted), and the final state is the requery of the
post-insert state. -/
theorem alloc_var_part_tail_update {st st' : TupState} {pi sz : Nat}
    {k : Local_key} (h : alloc_var_part_tail st pi sz = some (st', some k)) :
    k.m_page_no = pi ∧ sz + 1 ≤ (st.pool pi).free_space ∧
    ∃ stm, update_free_page_list stm pi = some st' := by
  rw [alloc_var_part_tail] at h
  split at h
  · exact absurd h (by simp)
  · rename_i pg idx halloc
    rw [var_page_alloc_record] at halloc
    split_ifs at halloc with hg
    split at h
    · exact absurd h (by simp)
    · rename_i st2 hu
      injection h with h
      rw [Prod.mk.injEq] at h
      obtain ⟨h1, h2⟩ := h
      subst h1
      injection h2 with h2
      subst h2
      exact ⟨rfl, by omega, _, hu⟩

/-- A freshly initialised page carries the maximum possible free
space. -/
theorem alloc_var_part_newpage_fs (st1 : TupState) (pi : Nat) :
    ((alloc_var_part_newpage st1 pi).pool pi).free_space = 8159 := by
  simp [alloc_var_part_newpage, set_page, add_to_list, var_page_init,
    Var_page_DATA_WORDS]

/-- Soundness of get_alloc_page below the top class: under the
class-list invariant (every page in list i has at least the class
minimum free), a returned page has room for the request whenever the
computed class is below MAX_FREE_LIST - 1, because the first-tier
lists then lie strictly above the computed class and the fallback scan
checks free_space explicitly. -/
theorem get_alloc_page_sound_aux {st : TupState} {sz p : Nat}
    (hinv : ∀ i, i < MAX_FREE_LIST → ∀ q, q ∈ st.free_var_page_array i →
      c_min_list_size i ≤ (st.pool q).free_space)
    (hsz : sz ≤ c_max_list_size (MAX_FREE_LIST - 2))
    (h : get_alloc_page st.free_var_page_array st.pool sz = .page p) :
    sz ≤ (st.pool p).free_space := by
  rw [get_alloc_page] at h
  split at h
  · exact absurd h (by simp)
  · rename_i ci hc
    have hM : MAX_FREE_LIST = 4 := rfl
    have hle := calculate_le_max hc
    have hci2 : ci ≤ 2 := by
      rcases calculate_cases hc with ⟨rfl, _⟩ | ⟨rfl, _⟩ | ⟨rfl, _⟩ |
        ⟨rfl, h4, _⟩
      · omega
      · omega
      · omega
      · exfalso
        have he : c_max_list_size (MAX_FREE_LIST - 2) = 4079 := rfl
        omega
    split_ifs at h with h1 h2
    · exfalso
      omega
    · rcases get_alloc_page_core_cases h with ⟨j, hj1, hj2, hm⟩ |
        ⟨_, hm, hfs⟩
      · have hq := hinv j (by omega) p hm
        have hj4 : j < 4 := by omega
        have hlt : c_max_list_size ci < c_min_list_size j := by
          interval_cases ci <;> interval_cases j <;> decide
        omega
      · exact hfs

/-- C1 (amended): under the class-list invariant and for every
requested size whose computed class is below the top class
(alloc_size at most c_max_list_size[MAX_FREE_LIST - 2] = 4079),
get_alloc_page returns RNIL or a page whose free_space is at least the
requested size: first-tier pages come from lists strictly above the
computed class, and fallback pages pass the explicit free_space check.
For top-class requests the guarantee fails (see the counterexample). -/
theorem C1_get_alloc_page_sound (st : TupState) (sz : Nat)
    (hinv : ∀ i, i < MAX_FREE_LIST → ∀ q, q ∈ st.free_var_page_array i →
      c_min_list_size i ≤ (st.pool q).free_space)
    (hsz : sz ≤ c_max_list_size (MAX_FREE_LIST - 2)) :
    ∀ p, get_alloc_page st.free_var_page_array st.pool sz = .page p →
      sz ≤ (st.pool p).free_space :=
  fun _ h => get_alloc_page_sound_aux hinv hsz h

/-- A fragment whose only listed page is page 7 in the top class list
with free space 4080: a legal state (the class invariant holds), on
which a top-class request of 8000 words is answered with page 7 even
though that page has only 4080 words free. -/
def C1_cex_state : TupState :=
  { pool := fun n =>
      if n = 7 then { blank_page with free_space := 4080, list_index := 3 }
      else blank_page,
    free_var_page_array := fun j => if j = 3 then [7] else [],
    m_empty_pages := [], noOfVarPages := 1, m_var_page_chunks := none,
    m_fix_header_size := 4, pool_avail := 0, next_page_id := 8,
    fix_free := [], fixed_live := [], var_ref_of := fun _ => ⟨0, 0⟩ }

/-- C1 counterexample: in a state satisfying the full class-list
invariant, get_alloc_page with requested size 8000 (top class) returns
page 7 whose free_space is 4080 < 8000, so the claim as stated — the
returned page always has free_space at least the requested size — is
false: the top-class branch keeps start_index at the computed class
and returns the head of that list without any free_space check. -/
theorem C1_counterexample :
    (∀ i, i < MAX_FREE_LIST → ∀ p, p ∈ C1_cex_state.free_var_page_array i →
      c_min_list_size i ≤ (C1_cex_state.pool p).free_space ∧
      (C1_cex_state.pool p).free_space ≤ c_max_list_size i) ∧
    get_alloc_page C1_cex_state.free_var_page_array C1_cex_state.pool
      8000 = .page 7 ∧
    (C1_cex_state.pool 7).free_space = 4080 ∧
    ¬ (8000 ≤ (C1_cex_state.pool 7).free_space) := by
  decide

/-- A fragment with page 2 in class list 1 (free space 600), used to
run the amended C1 theorem on the concrete request 300. -/
def C1_wit_state : TupState :=
  { pool := fun n =>
      if n = 2 then { blank_page with free_space := 600, list_index := 1 }
      else blank_page,
    free_var_page_array := fun j => if j = 1 then [2] else [],
    m_empty_pages := [], noOfVarPages := 1, m_var_page_chunks := none,
    m_fix_header_size := 4, pool_avail := 0, next_page_id := 8,
    fix_free := [], fixed_live := [], var_ref_of := fun _ => ⟨0, 0⟩ }

theorem C1_witness :
    ((∀ i, i < MAX_FREE_LIST →
        ∀ q, q ∈ C1_wit_state.free_var_page_array i →
          c_min_list_size i ≤ (C1_wit_state.pool q).free_space) ∧
      300 ≤ c_max_list_size (MAX_FREE_LIST - 2)) ∧
    ∀ p, get_alloc_page C1_wit_state.free_var_page_array C1_wit_state.pool
        300 = .page p → 300 ≤ (C1_wit_state.pool p).free_space :=
  ⟨⟨by decide, by decide⟩,
    C1_get_alloc_page_sound C1_wit_state 300 (by decide) (by decide)⟩

theorem TupState_ext {a b : TupState} (h1 : a.pool = b.pool)
    (h2 : a.free_var_page_array = b.free_var_page_array)
    (h3 : a.m_empty_pages = b.m_empty_pages)
    (h4 : a.noOfVarPages = b.noOfVarPages)
    (h5 : a.m_var_page_chunks = b.m_var_page_chunks)
    (h6 : a.m_fix_header_size = b.m_fix_header_size)
    (h7 : a.pool_avail = b.pool_avail)
    (h8 : a.next_page_id = b.next_page_id)
    (h9 : a.fix_free = b.fix_free)
    (h10 : a.fixed_live = b.fixed_live)
    (h11 : a.var_ref_of = b.var_ref_of) : a = b := by
  cases a
  cases b
  simp_all

/-- alloc_var_part fails, with the state unchanged, when the free
lists offer no page and the chunk supplier is exhausted. -/
theorem alloc_var_part_fail {st : TupState} (sz : Nat)
    (hrnil : get_alloc_page st.free_var_page_array st.pool (sz + 1) = .rnil)
    (hemp : st.m_empty_pages = []) (havail : st.pool_avail = 0) :
    alloc_var_part st sz = some (st, none) := by
  rw [alloc_var_part, hrnil, get_empty_var_page_fail st hemp havail]

/-- C4: when the fixed-part allocation succeeds but the variable-part
allocation fails, both alloc_var_rec and alloc_var_rowid free the
fixed part again (compensating rollback) and return null, leaving the
state exactly as on entry — no leaked allocation. -/
theorem C4_two_phase_rollback (st : TupState) (sz : Nat)
    (hfix : st.fix_free ≠ [])
    (hrnil : get_alloc_page st.free_var_page_array st.pool (sz + 1) = .rnil)
    (hemp : st.m_empty_pages = []) (havail : st.pool_avail = 0) :
    alloc_var_rec st sz = some (st, none) ∧
    alloc_var_rowid st sz = some (st, none) := by
  have main : alloc_var_rec st sz = some (st, none) := by
    rcases hff : st.fix_free with _ | ⟨k, rest⟩
    · exact absurd hff hfix
    · rw [alloc_var_rec]
      simp only [alloc_fix_rec]
      rw [hff]
      simp only
      rw [alloc_var_common]
      have hvp := @alloc_var_part_fail
        { st with
          m_fix_header_size := st.m_fix_header_size +
            (Tuple_header_HeaderSize + Var_part_ref_SZ32) -
            (Tuple_header_HeaderSize + Var_part_ref_SZ32),
          fix_free := rest, fixed_live := k :: st.fixed_live } sz
        hrnil hemp havail
      rw [hvp]
      simp only [Option.some.injEq, Prod.mk.injEq]
      refine ⟨?_, trivial⟩
      refine TupState_ext rfl rfl rfl rfl rfl ?_ rfl rfl ?_ ?_ rfl
      · simp [free_fix_rec]
      · simp [free_fix_rec, hff]
      · simp [free_fix_rec, List.erase_cons_head]
  exact ⟨main, main⟩

/-- A fragment where the fixed-part allocator still has a free slot
but the variable side is exhausted: all class lists empty, empty-page
list empty, page pool empty. -/
def C4_state : TupState :=
  { pool := fun _ => blank_page, free_var_page_array := fun _ => [],
    m_empty_pages := [], noOfVarPages := 0, m_var_page_chunks := none,
    m_fix_header_size := 12, pool_avail := 0, next_page_id := 0,
    fix_free := [⟨9, 9⟩], fixed_live := [], var_ref_of := fun _ => ⟨0, 0⟩ }

theorem C4_witness :
    (C4_state.fix_free ≠ [] ∧
      get_alloc_page C4_state.free_var_page_array C4_state.pool (100 + 1) =
        .rnil ∧
      C4_state.m_empty_pages = [] ∧ C4_state.pool_avail = 0) ∧
    (alloc_var_rec C4_state 100 = some (C4_state, none) ∧
      alloc_var_rowid C4_state 100 = some (C4_state, none)) :=
  ⟨⟨by decide, by decide, rfl, rfl⟩,
    C4_two_phase_rollback C4_state 100 (by decide) (by decide) rfl rfl⟩

/-- C3 (amended): realloc_var_part does not shrink in place.  For
newsz < oldsz the Uint32 difference newsz - oldsz wraps around 2^32,
so it always exceeds the page's free space and the in-place branch is
never taken; the call performs a full relocation instead and fails
(returns null) whenever alloc_var_part fails — shrinking can fail.
Only newsz = oldsz is handled in place unconditionally. -/
theorem C3_realloc_shrink_wraps (st : TupState)
    (pagePtrI oldsz newsz : Nat) (fixKey : Local_key)
    (hlt : newsz < oldsz) (hosz : oldsz ≤ 8159)
    (hfs : (st.pool pagePtrI).free_space ≤ 8159) :
    ¬ (u32sub newsz oldsz ≤ (st.pool pagePtrI).free_space) ∧
    (∀ stv, alloc_var_part st newsz = some (stv, none) →
      realloc_var_part st pagePtrI fixKey oldsz newsz = some (stv, none)) := by
  have hwrap : u32sub newsz oldsz = newsz + 4294967296 - oldsz := by
    rw [u32sub]
    omega
  constructor
  · omega
  · intro stv hav
    rw [realloc_var_part]
    rw [if_neg (by omega)]
    rw [hav]

/-- A fragment with a single 2-word entry on page 5 and a completely
exhausted allocator: every class list empty, no empty pages, no pool
pages left. -/
def C3_state : TupState :=
  { pool := fun n =>
      if n = 5 then
        { blank_page with
          free_space := 100, list_index := MAX_FREE_LIST, next_idx := 1,
          entry_len := fun j => if j = 0 then 2 else 0 }
      else blank_page,
    free_var_page_array := fun _ => [],
    m_empty_pages := [], noOfVarPages := 1, m_var_page_chunks := some 5,
    m_fix_header_size := 6, pool_avail := 0, next_page_id := 6,
    fix_free := [], fixed_live := [⟨1, 1⟩],
    var_ref_of := fun _ => ⟨5, 0⟩ }

/-- C3 counterexample: shrinking the 2-word entry on page 5 to 1 word
does not shrink in place and does not succeed: the wrapped Uint32
delta exceeds the page's free space of 100, so the in-place branch is
not taken, and with the allocator exhausted the relocation fails and
realloc_var_part returns null — refuting both the in-place claim and
the always-succeeds claim for newsz <= oldsz. -/
theorem C3_counterexample :
    1 < 2 ∧
    ¬ (u32sub 1 2 ≤ (C3_state.pool 5).free_space) ∧
    (realloc_var_part C3_state 5 ⟨1, 1⟩ 2 1).map (fun r => r.2) =
      some none := by
  decide

theorem C3_witness :
    (1 < 2 ∧ 2 ≤ 8159 ∧ (C3_state.pool 5).free_space ≤ 8159) ∧
    (¬ (u32sub 1 2 ≤ (C3_state.pool 5).free_space) ∧
      (∀ stv, alloc_var_part C3_state 1 = some (stv, none) →
        realloc_var_part C3_state 5 ⟨1, 1⟩ 2 1 = some (stv, none))) :=
  ⟨⟨by decide, by decide, by decide⟩,
    C3_realloc_shrink_wraps C3_state 5 2 1 ⟨1, 1⟩ (by decide) (by decide)
      (by decide)⟩

/-- The page of a key returned by alloc_var_part comes from one of
three sources: the free-list search — in which case the page had room
for the record plus its bookkeeping word, or the page-engine insert
would have aborted — the front of the empty-page list, or a freshly
allocated page id. -/
theorem alloc_var_part_key {st st1 : TupState} {sz : Nat} {k : Local_key}
    (h : alloc_var_part st sz = some (st1, some k)) :
    (get_alloc_page st.free_var_page_array st.pool (sz + 1) =
        .page k.m_page_no ∧
      sz + 1 ≤ (st.pool k.m_page_no).free_space) ∨
    (∃ rest, st.m_empty_pages = k.m_page_no :: rest) ∨
    (st.m_empty_pages = [] ∧ k.m_page_no = st.next_page_id) := by
  rw [alloc_var_part] at h
  split at h
  · exact absurd h (by simp)
  · rename_i pi hga
    obtain ⟨hk, hroom, _⟩ := alloc_var_part_tail_update h
    exact Or.inl ⟨by rw [hk]; exact hga, by rw [hk]; exact hroom⟩
  · simp only at h
    rcases hemp : st.m_empty_pages with _ | ⟨q, rest⟩
    · rcases havail : st.pool_avail with _ | a
      · rw [get_empty_var_page_fail st hemp havail] at h
        simp at h
      · obtain ⟨stx, hge⟩ := get_empty_var_page_batch hemp (by omega)
        rw [hge] at h
        simp only at h
        obtain ⟨hk, _, _⟩ := alloc_var_part_tail_update h
        exact Or.inr (Or.inr ⟨rfl, hk⟩)
    · rw [get_empty_var_page_pop hemp] at h
      simp only at h
      obtain ⟨hk, _, _⟩ := alloc_var_part_tail_update h
      exact Or.inr (Or.inl ⟨rest, by rw [hk]⟩)

/-- C8: whenever the in-place path of realloc_var_part is not taken
(the old page's free space is below the size delta, with
newsz > oldsz) and alloc_var_part succeeds, the page holding the new
slot is distinct from the page holding the old slot, so the defensive
ndbassert oldref.m_page_no != newref.m_page_no can never fire: a page
accepted by the page-engine insert has at least newsz + 1 words free —
more than the old page has, since the in-place test failed there — the
head of the empty-page list is never the in-use old page, and a
freshly allocated page id is new.  The last two hypotheses say the old
page is in use: not on the empty-page list and allocated before the
fresh id range. -/
theorem C8_realloc_distinct (st : TupState) (pagePtrI oldsz newsz : Nat)
    (fixKey : Local_key)
    (hgrow : oldsz < newsz) (hn32 : newsz < 4294967296)
    (hold : (st.pool pagePtrI).free_space < newsz - oldsz)
    (hnotempty : pagePtrI ∉ st.m_empty_pages)
    (hfresh : pagePtrI < st.next_page_id) :
    ∀ st' k, realloc_var_part st pagePtrI fixKey oldsz newsz =
        some (st', some k) →
      k.m_page_no ≠ pagePtrI := by
  intro st' k h
  have hadd : u32sub newsz oldsz = newsz - oldsz := by
    rw [u32sub]
    omega
  rw [realloc_var_part] at h
  rw [if_neg (by omega)] at h
  split at h
  · exact absurd h (by simp)
  · simp at h
  · rename_i st1 newref hav
    simp only at h
    split at h
    · exact absurd h (by simp)
    · rename_i st4 hu
      injection h with h
      rw [Prod.mk.injEq] at h
      obtain ⟨h1, h2⟩ := h
      injection h2 with h2
      subst h2
      rcases alloc_var_part_key hav with ⟨hga, hroom⟩ | ⟨rest, hpop⟩ |
        ⟨_, hfreshk⟩
      · intro heq
        rw [heq] at hroom
        omega
      · intro heq
        apply hnotempty
        rw [hpop, heq]
        exact List.mem_cons_self pagePtrI rest
      · intro heq
        omega

/-- A fragment where page 5 (unlisted, free space 100) holds a 50-word
entry and page 2 sits in class list 1 with 600 words free: growing the
entry to 300 words relocates it, and the C8 theorem shows the target
page differs from page 5. -/
def C8_wit_state : TupState :=
  { pool := fun n =>
      if n = 5 then
        { blank_page with
          free_space := 100, list_index := MAX_FREE_LIST, next_idx := 1,
          entry_len := fun j => if j = 0 then 50 else 0 }
      else if n = 2 then
        { blank_page with free_space := 600, list_index := 1, next_idx := 3 }
      else blank_page,
    free_var_page_array := fun j => if j = 1 then [2] else [],
    m_empty_pages := [], noOfVarPages := 2, m_var_page_chunks := some 5,
    m_fix_header_size := 6, pool_avail := 3, next_page_id := 10,
    fix_free := [], fixed_live := [⟨1, 1⟩],
    var_ref_of := fun _ => ⟨5, 0⟩ }

theorem C8_witness :
    (50 < 300 ∧ 300 < 4294967296 ∧
      (C8_wit_state.pool 5).free_space < 300 - 50 ∧
      5 ∉ C8_wit_state.m_empty_pages ∧ 5 < C8_wit_state.next_page_id) ∧
    ∀ st' k, realloc_var_part C8_wit_state 5 ⟨1, 1⟩ 50 300 =
        some (st', some k) →
      k.m_page_no ≠ 5 :=
  ⟨⟨by decide, by decide, by decide, by decide, by decide⟩,
    C8_realloc_distinct C8_wit_state 5 50 300 ⟨1, 1⟩ (by decide) (by decide)
      (by decide) (by decide) (by decide)⟩
